import Mathlib

/-!
Verification development for the ITCH_parser repository.

The definitions below are a shallow embedding of the Python sources:
* `src/build_level2_simple.py` — the order store, its event handlers and the
  per-symbol depth aggregation (`build_level2_simple`);
* `src/message_type_decoders.py` — the byte-level message decoders and the
  `decode_message` dispatcher.

Python CSV rows (`csv.DictReader` rows) are embedded as the `Row` structure
whose fields are `Option String` (`none` models a missing key, mirroring
`row.get(k)` returning `None`).  Python `dict` stores are embedded as
association lists with Python's assignment semantics (`insertS` overwrites in
place).  Python numeric conversions `int(...)` / `float(...)` are embedded by
the executable parsers `pyInt` / `pyFloat`; a `none` result models the
conversion raising `ValueError` (which the source catches with `pass`).
`float` values are modelled as exact rationals: the decimal literal grammar is
embedded exactly, while binary-rounding, exponent forms and the non-finite
literals (`inf`, `nan`) are outside the model and treated as parse failures.
-/

/-- ASCII whitespace recognised by Python's `str.strip()` / number parsing. -/
def isPyWs (c : Char) : Bool :=
  c = ' ' || c = '\t' || c = '\n' || c = '\r' || c = '\x0b' || c = '\x0c'

/-- Strip leading and trailing whitespace from a character list
(Python `str.strip()`). -/
def pyStrip (l : List Char) : List Char :=
  ((l.dropWhile isPyWs).reverse.dropWhile isPyWs).reverse

/-- Python `str.strip()`. -/
def pyStripStr (s : String) : String :=
  String.mk (pyStrip s.data)

/-- Value of a digit string (most significant first). -/
def digitsVal (l : List Char) : Nat :=
  l.foldl (fun a c => a * 10 + (c.toNat - 48)) 0

/-- All characters are ASCII digits. -/
def allDigits (l : List Char) : Bool :=
  l.all (fun c => c.isDigit)

/-- Core of Python `int(s)` on an already-stripped character list:
an optional sign followed by a nonempty run of digits. -/
def pyIntCore (l : List Char) : Option Int :=
  match l with
  | '+' :: t => if t ≠ [] ∧ allDigits t = true then some ((digitsVal t : Int)) else none
  | '-' :: t => if t ≠ [] ∧ allDigits t = true then some (-(digitsVal t : Int)) else none
  | _ => if l ≠ [] ∧ allDigits l = true then some ((digitsVal l : Int)) else none

/-- Models Python `int(s)`: strip whitespace, optional sign, digits.
`none` models `int` raising `ValueError`. -/
def pyInt (s : String) : Option Int :=
  pyIntCore (pyStrip s.data)

/-- Unsigned decimal-literal body for Python `float(s)`:
`digits`, `digits.digits`, `digits.` or `.digits`, valued exactly as a
rational (the model of the float is its exact decimal value). -/
def pyFloatBody (l : List Char) : Option Rat :=
  let a := l.takeWhile (fun c => c != '.')
  let r := l.dropWhile (fun c => c != '.')
  match r with
  | [] => if l ≠ [] ∧ allDigits l = true then some ((digitsVal l : Int) : Rat) else none
  | _ :: after =>
    if after.all (fun c => c != '.') = true ∧ allDigits a = true ∧
        allDigits after = true ∧ (a ≠ [] ∨ after ≠ []) then
      some (mkRat (digitsVal (a ++ after) : Int) (10 ^ after.length))
    else none

/-- Core of Python `float(s)` on a stripped character list: optional sign then
a decimal-literal body. -/
def pyFloatCore (l : List Char) : Option Rat :=
  match l with
  | '+' :: t => pyFloatBody t
  | '-' :: t => (pyFloatBody t).map (fun q => -q)
  | _ => pyFloatBody l

/-- Models Python `float(s)` on plain decimal literals (exponent forms and
`inf`/`nan` are outside the model and yield `none`, as does `ValueError`). -/
def pyFloat (s : String) : Option Rat :=
  pyFloatCore (pyStrip s.data)

/-!  ## The Order Store of `build_level2_simple.py`  -/

/-- A live order: the value stored in the `orders` dict of
`build_level2_simple` (`{'symbol', 'side', 'price', 'qty', 'timestamp'}`).
`price` is the Python float, modelled as an exact rational. -/
structure LiveOrder where
  symbol : String
  side : String
  price : Rat
  qty : Int
  timestamp : Int
deriving DecidableEq, Repr

/-- Keys of the `orders` dict.  The source indexes it with values returned by
`row.get(...)`, which may be `None`; Python permits `None` as a dict key, so
keys are `Option String`. -/
abbrev Key := Option String

/-- The `orders` dict, as an association list in insertion order. -/
abbrev Store := List (Key × LiveOrder)

/-- First-match lookup: `orders[k]` / `k in orders`. -/
def lookup : Store → Key → Option LiveOrder
  | [], _ => none
  | p :: t, k => if p.1 = k then some p.2 else lookup t k

/-- `del orders[k]` (removes every binding of `k`; dict stores have at most
one). -/
def eraseS : Store → Key → Store
  | [], _ => []
  | p :: t, k => if p.1 = k then eraseS t k else p :: eraseS t k

/-- `orders[k] = v`: Python dict assignment — overwrite in place if the key
exists, else append. -/
def insertS : Store → Key → LiveOrder → Store
  | [], k, v => [(k, v)]
  | p :: t, k, v => if p.1 = k then (k, v) :: t else p :: insertS t k v

/-- One CSV row as consumed by `build_level2_simple`.  A field is `none` when
the key is missing from the row (`row.get(k)` returns `None`). -/
structure Row where
  message_type : Option String := none
  order_id : Option String := none
  old_order_id : Option String := none
  symbol : Option String := none
  side : Option String := none
  price : Option String := none
  quantity : Option String := none
  timestamp : Option String := none
  seconds : Option String := none
deriving DecidableEq, Repr

/-- `row.get('timestamp', row.get('seconds', '0'))`. -/
def effTimestampStr (row : Row) : String :=
  row.timestamp.getD (row.seconds.getD "0")

/-- Type `'A'` (Add Order) branch of `build_level2_simple` (lines 36–54).
The dict literal is evaluated before the assignment, so if any of the three
numeric conversions raises, nothing is inserted (`except: pass`). -/
def applyAdd (s : Store) (row : Row) : Store :=
  match row.order_id with
  | none => s
  | some oid =>
    if oid ≠ "" ∧ pyStripStr (row.symbol.getD "") ≠ "" then
      match (if row.price.getD "0" ≠ "" then pyFloat (row.price.getD "0") else some 0),
            (if row.quantity.getD "0" ≠ "" then pyInt (row.quantity.getD "0") else some 0),
            (if effTimestampStr row ≠ "" then pyInt (effTimestampStr row) else some 0) with
      | some p, some q, some t =>
        insertS s (some oid)
          { symbol := pyStripStr (row.symbol.getD ""), side := pyStripStr (row.side.getD "B"),
            price := p, qty := q, timestamp := t }
      | _, _, _ => s
    else s

/-- The executed quantity an `'e'` row converts:
`int(exec_qty_str) if exec_qty_str else 0` with
`exec_qty_str = row.get('quantity', '0')`. -/
def execQty? (row : Row) : Option Int :=
  if row.quantity.getD "0" ≠ "" then pyInt (row.quantity.getD "0") else some 0

/-- Type `'e'` (Execute Order) branch (lines 57–68): no-op when the id is not
a key of the store; otherwise decrement `qty` and delete the entry when the
result is `≤ 0`.  A conversion failure occurs before the mutation, so it
leaves the store unchanged. -/
def applyExecute (s : Store) (row : Row) : Store :=
  match lookup s row.order_id with
  | none => s
  | some o =>
    match execQty? row with
    | none => s
    | some e =>
      if o.qty - e ≤ 0 then eraseS s row.order_id
      else insertS s row.order_id { o with qty := o.qty - e }

/-- Type `'D'` (Delete Order) branch (lines 71–74):
`if order_id and order_id in orders: del orders[order_id]`. -/
def applyDelete (s : Store) (row : Row) : Store :=
  match row.order_id with
  | none => s
  | some oid =>
    if oid ≠ "" ∧ (lookup s (some oid)).isSome then eraseS s (some oid) else s

/-- The replacement order built by the `'U'` branch from the old order and the
row, `none` when one of the two conversions raises:
price `float(new_price_str) if new_price_str and new_price_str != '0' else old price`,
qty `int(new_qty_str) if new_qty_str else old qty`. -/
def newOrder? (row : Row) (old : LiveOrder) : Option LiveOrder :=
  match (if row.price.getD "0" ≠ "" ∧ row.price.getD "0" ≠ "0"
          then pyFloat (row.price.getD "0") else some old.price),
        (if row.quantity.getD "0" ≠ "" then pyInt (row.quantity.getD "0")
          else some old.qty) with
  | some p, some q =>
    some { symbol := old.symbol, side := old.side, price := p, qty := q, timestamp := old.timestamp }
  | _, _ => none

/-- Type `'U'` (Replace Order) branch (lines 77–96).  The source performs
`del orders[old_id]` first and only then evaluates the new dict literal; a
conversion failure is swallowed by `except ... pass`, so the deletion
survives while the insertion is skipped. -/
def applyReplace (s : Store) (row : Row) : Store :=
  match lookup s row.old_order_id with
  | none => s
  | some old =>
    match newOrder? row old with
    | some n => insertS (eraseS s row.old_order_id) row.order_id n
    | none => eraseS s row.old_order_id

/-- One iteration of the message loop of `build_level2_simple` restricted to
its effect on the `orders` dict.  The `'T'` branch only reads the store to
record a snapshot and never mutates it. -/
def step (s : Store) (row : Row) : Store :=
  if row.message_type = some "A" then applyAdd s row
  else if row.message_type = some "e" then applyExecute s row
  else if row.message_type = some "D" then applyDelete s row
  else if row.message_type = some "U" then applyReplace s row
  else s

/-- Run a whole event sequence from the initially empty store
(`orders = {}`). -/
def runRows (rows : List Row) : Store :=
  rows.foldl step []

/-!  ## Depth aggregation (`'T'` branch, lines 99–126)

The `'T'` branch walks `orders.items()` and accumulates
`tickers[ticker]['bids'][price] += qty` (side `'B'`) or the same into
`'asks'` (any other side), then takes `sorted(keys, reverse=True)[:5]` for
bids and `sorted(keys)[:5]` for asks.  Because the price keys are sorted
before truncation, the result does not depend on dict iteration order, so the
aggregation is embedded as the functions below.  -/

/-- The live orders of one symbol on the bid side (`order['side'] == 'B'`). -/
def bidOrdersOf (s : Store) (sym : String) : List LiveOrder :=
  (s.map Prod.snd).filter (fun o => decide (o.symbol = sym ∧ o.side = "B"))

/-- The live orders of one symbol on the ask side (the `else` branch: every
side other than `'B'`). -/
def askOrdersOf (s : Store) (sym : String) : List LiveOrder :=
  (s.map Prod.snd).filter (fun o => decide (o.symbol = sym ∧ o.side ≠ "B"))

/-- The distinct bid price keys of `tickers[sym]['bids']`. -/
def bidPricesOf (s : Store) (sym : String) : List Rat :=
  ((bidOrdersOf s sym).map LiveOrder.price).dedup

/-- The distinct ask price keys of `tickers[sym]['asks']`. -/
def askPricesOf (s : Store) (sym : String) : List Rat :=
  ((askOrdersOf s sym).map LiveOrder.price).dedup

/-- `tickers[sym]['bids'][p]`: total bid quantity accumulated at price `p`. -/
def bidQtyAt (s : Store) (sym : String) (p : Rat) : Int :=
  (((bidOrdersOf s sym).filter (fun o => decide (o.price = p))).map LiveOrder.qty).sum

/-- `tickers[sym]['asks'][p]`: total ask quantity accumulated at price `p`. -/
def askQtyAt (s : Store) (sym : String) (p : Rat) : Int :=
  (((askOrdersOf s sym).filter (fun o => decide (o.price = p))).map LiveOrder.qty).sum

/-- Sort prices descending (`sorted(..., reverse=True)`). -/
def sortDescRat (l : List Rat) : List Rat :=
  l.insertionSort (fun a b => b ≤ a)

/-- Sort prices ascending (`sorted(...)`). -/
def sortAscRat (l : List Rat) : List Rat :=
  l.insertionSort (fun a b => a ≤ b)

/-- `bid_data`: the (price, aggregate quantity) levels of the snapshot —
price keys sorted descending, truncated to the best 5, each paired with its
accumulated quantity. -/
def bidLevels (s : Store) (sym : String) : List (Rat × Int) :=
  ((sortDescRat (bidPricesOf s sym)).take 5).map (fun p => (p, bidQtyAt s sym p))

/-- `ask_data`: ask levels — price keys sorted ascending, truncated to 5. -/
def askLevels (s : Store) (sym : String) : List (Rat × Int) :=
  ((sortAscRat (askPricesOf s sym)).take 5).map (fun p => (p, askQtyAt s sym p))

/-!  ## Invariant and side conditions  -/

/-- Spec invariant I1 on the embedded store: every entry has a strictly
positive quantity. -/
def StoreInv (s : Store) : Prop :=
  ∀ p ∈ s, 0 < p.2.qty

instance (s : Store) : Decidable (StoreInv s) := by
  unfold StoreInv; infer_instance

/-- The quantity string either fails to convert (no insertion happens) or
converts to a strictly positive integer. -/
def qtyOkB (qs : String) : Bool :=
  match pyInt qs with
  | some q => decide (0 < q)
  | none => true

/-- Side condition under which the `qty > 0` invariant is preserved: an
`'A'` row must carry a nonempty quantity string that does not convert to a
non-positive integer, and a `'U'` row's quantity string must not convert to a
non-positive integer (an empty one carries the old quantity forward). -/
def goodQty (row : Row) : Prop :=
  (row.message_type = some "A" →
    row.quantity.getD "0" ≠ "" ∧ qtyOkB (row.quantity.getD "0") = true) ∧
  (row.message_type = some "U" → qtyOkB (row.quantity.getD "0") = true)

instance (row : Row) : Decidable (goodQty row) := by
  unfold goodQty; infer_instance

/-!  ## The message decoders of `message_type_decoders.py`

A raw frame is a byte list (`List Nat`, each element a byte value).  The
decoders return Python dicts `Dict[str, Any]`, embedded as association lists
from field name to a `PyVal`. -/

/-- A Python value stored in a decoder result dict. -/
inductive PyVal where
  | vStr : String → PyVal
  | vInt : Int → PyVal
  | vRat : Rat → PyVal
  | vBytes : List Nat → PyVal
  | vNone : PyVal
deriving DecidableEq, Repr

/-- A decoder result: `Dict[str, Any]` in insertion order. -/
abbrev PyDict := List (String × PyVal)

/-- `msg[a:b]` byte-slice. -/
def sl (msg : List Nat) (a b : Nat) : List Nat :=
  (msg.drop a).take (b - a)

/-- Big-endian value of a byte list (`int.from_bytes(_, 'big')`). -/
def beNat (l : List Nat) : Nat :=
  l.foldl (fun a b => a * 256 + b) 0

/-- `struct.unpack('>I', data[:4])[0]`: unsigned 32-bit big-endian. -/
def beU32 (l : List Nat) : Nat :=
  beNat (l.take 4)

/-- `struct.unpack('>i', data[:4])[0]`: signed 32-bit big-endian. -/
def beI32 (l : List Nat) : Int :=
  let u := beU32 l
  if u < 2 ^ 31 then (u : Int) else (u : Int) - 2 ^ 32

/-- `decode_timestamp`: 4-byte big-endian seconds, `None` when fewer than 4
bytes are available. -/
def decode_timestamp (data : List Nat) : Option Nat :=
  if data.length < 4 then none else some (beU32 data)

/-- `decode_qty`: 4-byte big-endian quantity. -/
def decode_qty (data : List Nat) : Option Nat :=
  if data.length < 4 then none else some (beU32 data)

/-- `decode_price`: 4-byte big-endian signed fixed-point integer divided by
`10 ** scale` (a Python float; its exact value is `cents / 10^scale`,
written with `mkRat`, which is the same rational). -/
def decode_price (data : List Nat) (scale : Nat) : Option Rat :=
  if data.length < 4 then none else some (mkRat (beI32 data) (10 ^ scale))

/-- Lowercase hex digit for a value in 0..15 (48 is the code of `0`, 87 + 10
the code of `a`). -/
def hexL (n : Nat) : Char :=
  if n < 10 then Char.ofNat (48 + n) else Char.ofNat (87 + n)

/-- Uppercase hex digit for a value in 0..15 (55 + 10 is the code of `A`). -/
def hexU (n : Nat) : Char :=
  if n < 10 then Char.ofNat (48 + n) else Char.ofNat (55 + n)

/-- `f'{b:02X}'`. -/
def hex2U (b : Nat) : String :=
  String.mk [hexU (b / 16), hexU (b % 16)]

/-- `bytes.hex()`: lowercase hex of a byte list. -/
def bytesHex (l : List Nat) : String :=
  String.mk (l.foldr (fun b acc => hexL (b / 16) :: hexL (b % 16) :: acc) [])

/-- `decode_side`: `None` on empty input; the character for `'B'`/`'S'`, an
uppercase `0xNN` rendering otherwise. -/
def decode_side (data : List Nat) : Option String :=
  match data with
  | [] => none
  | b :: _ => some (if b = 66 ∨ b = 83 then String.mk [Char.ofNat b] else "0x" ++ hex2U b)

/-- `bytes.rstrip(b'\x00 ')`: drop trailing NUL and space bytes. -/
def rstripNulSpace (l : List Nat) : List Nat :=
  (l.reverse.dropWhile (fun b => b = 0 || b = 32)).reverse

/-- `bytes.decode('ascii', errors='replace')`: non-ASCII bytes become
U+FFFD. -/
def asciiReplace (l : List Nat) : String :=
  String.mk (l.map (fun b => if b < 128 then Char.ofNat b else '�'))

/-- `bytes.decode('ascii', errors='ignore')`: non-ASCII bytes are dropped
(and the decode can never raise, so the source's `except` arms around it are
dead). -/
def asciiIgnore (l : List Nat) : String :=
  String.mk ((l.filter (fun b => decide (b < 128))).map Char.ofNat)

/-- Wrap an optional decoded number the way the dicts store it (`None` when
the decode helper returned `None`). -/
def pvOptNat : Option Nat → PyVal
  | some n => .vInt (n : Int)
  | none => .vNone

/-- Wrap an optional decoded price. -/
def pvOptRat : Option Rat → PyVal
  | some q => .vRat q
  | none => .vNone

/-- Wrap an optional decoded side string. -/
def pvOptStr : Option String → PyVal
  | some s => .vStr s
  | none => .vNone

/-- `parse_message_type_a`: Type `'A'` Add Order (30 bytes); each field is
emitted only when the frame is long enough for it. -/
def parse_message_type_a (msg : List Nat) : PyDict :=
  [("message_type", .vStr "A"), ("type_name", .vStr "Add Order"), ("message_length", .vInt 30)]
  ++ (if 1 ≤ msg.length then [("msg_type_byte", .vBytes (sl msg 0 1))] else [])
  ++ (if 5 ≤ msg.length then [("timestamp", pvOptNat (decode_timestamp (sl msg 1 5)))] else [])
  ++ (if 13 ≤ msg.length then [("order_id", .vInt (beNat (sl msg 5 13) : Int))] else [])
  ++ (if 21 ≤ msg.length then
        [("symbol", .vStr (asciiReplace (rstripNulSpace (sl msg 13 21))))] else [])
  ++ (if 25 ≤ msg.length then [("quantity", .vInt (beU32 (sl msg 21 25) : Int))] else [])
  ++ (if 29 ≤ msg.length then [("price", pvOptRat (decode_price (sl msg 25 29) 2))] else [])
  ++ (if 30 ≤ msg.length then [("side", pvOptStr (decode_side (sl msg 29 30)))] else [])

/-- `parse_message_type_r`: Type `'R'` Trade Report (90 bytes). -/
def parse_message_type_r (msg : List Nat) : PyDict :=
  [("message_type", .vStr "R"), ("type_name", .vStr "Trade Report (PSE-specific)"),
   ("message_length", .vInt (msg.length : Int))]
  ++ (if 1 ≤ msg.length then [("msg_type_byte", .vBytes (sl msg 0 1))] else [])
  ++ (if 5 ≤ msg.length then [("timestamp", pvOptNat (decode_timestamp (sl msg 1 5)))] else [])
  ++ (if 13 ≤ msg.length then [("order_id", .vInt (beNat (sl msg 5 13) : Int))] else [])
  ++ (if 13 < msg.length then [("raw_payload", .vStr (bytesHex (msg.drop 13)))] else [])
  ++ (if 28 ≤ msg.length then
        [("symbol_raw", .vStr (asciiIgnore (rstripNulSpace (sl msg 13 21))))] else [])

/-- `parse_message_type_k`: Type `'k'` Order Book/Quote (30 bytes), same
layout as Type `'A'`. -/
def parse_message_type_k (msg : List Nat) : PyDict :=
  [("message_type", .vStr "k"), ("type_name", .vStr "Order Book/Quote Update (PSE-specific)"),
   ("message_length", .vInt 30)]
  ++ (if 1 ≤ msg.length then [("msg_type_byte", .vBytes (sl msg 0 1))] else [])
  ++ (if 5 ≤ msg.length then [("timestamp", pvOptNat (decode_timestamp (sl msg 1 5)))] else [])
  ++ (if 13 ≤ msg.length then [("order_id", .vInt (beNat (sl msg 5 13) : Int))] else [])
  ++ (if 21 ≤ msg.length then
        [("symbol", .vStr (asciiReplace (rstripNulSpace (sl msg 13 21))))] else [])
  ++ (if 25 ≤ msg.length then [("quantity", .vInt (beU32 (sl msg 21 25) : Int))] else [])
  ++ (if 29 ≤ msg.length then [("price", pvOptRat (decode_price (sl msg 25 29) 2))] else [])
  ++ (if 30 ≤ msg.length then [("side", pvOptStr (decode_side (sl msg 29 30)))] else [])

/-- `parse_message_type_h`: Type `'H'` Trading Status (11 bytes); the ASCII
decode with `errors='ignore'` cannot raise, so only the `try` arm is live. -/
def parse_message_type_h (msg : List Nat) : PyDict :=
  [("message_type", .vStr "H"), ("type_name", .vStr "Trading Status"), ("message_length", .vInt 11)]
  ++ (if 1 ≤ msg.length then [("msg_type_byte", .vBytes (sl msg 0 1))] else [])
  ++ (if 5 ≤ msg.length then [("timestamp", pvOptNat (decode_timestamp (sl msg 1 5)))] else [])
  ++ (if 11 ≤ msg.length then
        [("status_code", .vStr (asciiIgnore (rstripNulSpace (sl msg 5 11))))] else [])

/-- `parse_message_type_f`: Type `'f'` (24 bytes, layout unknown). -/
def parse_message_type_f (msg : List Nat) : PyDict :=
  [("message_type", .vStr "f"), ("type_name", .vStr "Unknown PSE Type (f)"),
   ("message_length", .vInt 24)]
  ++ (if 1 ≤ msg.length then [("msg_type_byte", .vBytes (sl msg 0 1))] else [])
  ++ (if 5 ≤ msg.length then [("timestamp", pvOptNat (decode_timestamp (sl msg 1 5)))] else [])
  ++ (if 5 < msg.length then [("raw_payload", .vStr (bytesHex (msg.drop 5)))] else [])

/-- `parse_message_type_l`: Type `'L'` Listing/IPO (17 bytes). -/
def parse_message_type_l (msg : List Nat) : PyDict :=
  [("message_type", .vStr "L"), ("type_name", .vStr "Listing/IPO"), ("message_length", .vInt 17)]
  ++ (if 1 ≤ msg.length then [("msg_type_byte", .vBytes (sl msg 0 1))] else [])
  ++ (if 5 ≤ msg.length then [("timestamp", pvOptNat (decode_timestamp (sl msg 1 5)))] else [])
  ++ (if 13 ≤ msg.length then
        [("symbol", .vStr (asciiReplace (rstripNulSpace (sl msg 5 13))))] else [])
  ++ (if 17 ≤ msg.length then [("extra_data", .vStr (bytesHex (sl msg 13 17)))] else [])

/-- `parse_message_type_s`: Type `'s'` (22 bytes, layout unknown); the ASCII
decode with `errors='replace'` cannot raise, so only the `try` arm is live. -/
def parse_message_type_s (msg : List Nat) : PyDict :=
  [("message_type", .vStr "s"), ("type_name", .vStr "Unknown PSE Type (s)"),
   ("message_length", .vInt 22)]
  ++ (if 1 ≤ msg.length then [("msg_type_byte", .vBytes (sl msg 0 1))] else [])
  ++ (if 5 ≤ msg.length then [("timestamp", pvOptNat (decode_timestamp (sl msg 1 5)))] else [])
  ++ (if 13 ≤ msg.length then
        [("identifier", .vStr (asciiReplace (rstripNulSpace (sl msg 5 13))))] else [])
  ++ (if 13 < msg.length then [("raw_payload", .vStr (bytesHex (msg.drop 13)))] else [])

/-- `parse_message_type_m`: Type `'M'` (25 bytes, layout unknown). -/
def parse_message_type_m (msg : List Nat) : PyDict :=
  [("message_type", .vStr "M"), ("type_name", .vStr "Unknown PSE Type (M)"),
   ("message_length", .vInt 25)]
  ++ (if 1 ≤ msg.length then [("msg_type_byte", .vBytes (sl msg 0 1))] else [])
  ++ (if 5 ≤ msg.length then [("timestamp", pvOptNat (decode_timestamp (sl msg 1 5)))] else [])
  ++ (if 5 < msg.length then [("raw_payload", .vStr (bytesHex (msg.drop 5)))] else [])

/-- `parse_message_type_s_stock`: Type `'S'` Stock Trade; the guarded
`struct.unpack` has exactly 4 bytes available, so its `except` arm is dead. -/
def parse_message_type_s_stock (msg : List Nat) : PyDict :=
  [("message_type", .vStr "S"), ("type_name", .vStr "Stock Trade"),
   ("message_length", .vInt (msg.length : Int))]
  ++ (if 1 ≤ msg.length then [("msg_type_byte", .vBytes (sl msg 0 1))] else [])
  ++ (if 5 ≤ msg.length then [("timestamp", pvOptNat (decode_timestamp (sl msg 1 5)))] else [])
  ++ (if 13 ≤ msg.length then [("order_id", .vInt (beNat (sl msg 5 13) : Int))] else [])
  ++ (if 21 ≤ msg.length then
        [("symbol", .vStr (asciiReplace (rstripNulSpace (sl msg 13 21))))] else [])
  ++ (if 25 ≤ msg.length then [("quantity", .vInt (beU32 (sl msg 21 25) : Int))] else [])

/-- `parse_message_type_t`: Type `'T'` System Sync (5 bytes). -/
def parse_message_type_t (msg : List Nat) : PyDict :=
  [("message_type", .vStr "T"), ("type_name", .vStr "System Sync"), ("message_length", .vInt 5)]
  ++ (if 1 ≤ msg.length then [("msg_type_byte", .vBytes (sl msg 0 1))] else [])
  ++ (if 5 ≤ msg.length then [("counter", .vInt (beNat (sl msg 1 5) : Int))] else [])

/-- `chr(msg[0]) if 32 <= msg[0] < 127 else f'0x{msg[0]:02X}'`. -/
def msgTypeStr (b : Nat) : String :=
  if 32 ≤ b ∧ b < 127 then String.mk [Char.ofNat b] else "0x" ++ hex2U b

/-- `decode_message`: dispatch on the leading type-tag byte; an empty frame
yields the error dict, a tag with no registered decoder yields the
`Unknown` dict carrying the tag, the length and the raw bytes. -/
def decode_message (msg : List Nat) : PyDict :=
  match msg with
  | [] => [("error", .vStr "Empty message")]
  | b :: _ =>
    let mt := msgTypeStr b
    if mt = "A" then parse_message_type_a msg
    else if mt = "R" then parse_message_type_r msg
    else if mt = "k" then parse_message_type_k msg
    else if mt = "H" then parse_message_type_h msg
    else if mt = "f" then parse_message_type_f msg
    else if mt = "L" then parse_message_type_l msg
    else if mt = "s" then parse_message_type_s msg
    else if mt = "M" then parse_message_type_m msg
    else if mt = "S" then parse_message_type_s_stock msg
    else if mt = "T" then parse_message_type_t msg
    else
      [("message_type", .vStr mt), ("type_name", .vStr "Unknown"),
       ("message_length", .vInt (msg.length : Int)), ("raw", .vStr (bytesHex msg))]

/-- A decoder result dict contains the field `k`. -/
def hasKey (d : PyDict) (k : String) : Bool :=
  d.any (fun p => decide (p.1 = k))

instance : IsTotal Rat (fun a b => b ≤ a) :=
  ⟨fun a b => le_total b a⟩

instance : IsTrans Rat (fun a b => b ≤ a) :=
  ⟨fun _ _ _ h1 h2 => le_trans h2 h1⟩

instance : IsTotal Rat (fun a b => a ≤ b) :=
  ⟨fun a b => le_total a b⟩

instance : IsTrans Rat (fun a b => a ≤ b) :=
  ⟨fun _ _ _ h1 h2 => le_trans h1 h2⟩

/-!  ## Concrete rows and stores used to instantiate the theorems  -/

/-- A store holding one bid order: id "1", ABC, 10.00, qty 100. -/
def exStore1 : Store :=
  [(some "1", { symbol := "ABC", side := "B", price := 10, qty := 100, timestamp := 0 })]

/-- Replace 1 → 2 with a malformed price string. -/
def exRowReplaceBad : Row :=
  { message_type := some "U", old_order_id := some "1", order_id := some "2",
    price := some "abc", quantity := some "200" }

/-- Scenario C: Replace 1 → 2, price field empty (absent), quantity 200. -/
def exRowReplaceC : Row :=
  { message_type := some "U", old_order_id := some "1", order_id := some "2",
    price := some "", quantity := some "200" }

/-- Replace whose new id equals the old id. -/
def exRowReplaceSame : Row :=
  { message_type := some "U", old_order_id := some "1", order_id := some "1",
    price := some "", quantity := some "200" }

/-- An AddOrder carrying quantity "0". -/
def exRowAddZero : Row :=
  { message_type := some "A", order_id := some "1", symbol := some "ABC",
    quantity := some "0" }

/-- AddOrder id 1, ABC, Bid, 10.00, 100. -/
def exRowAdd1 : Row :=
  { message_type := some "A", order_id := some "1", symbol := some "ABC",
    side := some "B", price := some "10.00", quantity := some "100", timestamp := some "7" }

/-- AddOrder id 2, ABC, Bid, 10.00, 50. -/
def exRowAdd2 : Row :=
  { message_type := some "A", order_id := some "2", symbol := some "ABC",
    side := some "B", price := some "10.00", quantity := some "50" }

/-- ExecuteOrder id 1, 40 shares. -/
def exRowExec40 : Row :=
  { message_type := some "e", order_id := some "1", quantity := some "40" }

/-- ExecuteOrder id 1, 60 shares. -/
def exRowExec60 : Row :=
  { message_type := some "e", order_id := some "1", quantity := some "60" }

/-- Scenario D: ExecuteOrder for the never-added id 999. -/
def exRowExecNone : Row :=
  { message_type := some "e", order_id := some "999", quantity := some "5" }

/-- DeleteOrder id 1. -/
def exRowDel1 : Row :=
  { message_type := some "D", order_id := some "1" }

/-- A SnapshotTrigger row. -/
def exRowT : Row :=
  { message_type := some "T", seconds := some "5" }

/-- An AddOrder with no order_id field. -/
def exRowAddNoId : Row :=
  { message_type := some "A", symbol := some "ABC", quantity := some "5" }

/-- Scenario B store: two same-price bids then a snapshot trigger. -/
def exStoreB : Store :=
  runRows [exRowAdd1, exRowAdd2, exRowT]

/-- A store with six distinct bid prices and six distinct ask prices for one
symbol. -/
def exStore7 : Store :=
  [(some "b1", { symbol := "S", side := "B", price := 1, qty := 1, timestamp := 0 }),
   (some "b2", { symbol := "S", side := "B", price := 2, qty := 1, timestamp := 0 }),
   (some "b3", { symbol := "S", side := "B", price := 3, qty := 1, timestamp := 0 }),
   (some "b4", { symbol := "S", side := "B", price := 4, qty := 1, timestamp := 0 }),
   (some "b5", { symbol := "S", side := "B", price := 5, qty := 1, timestamp := 0 }),
   (some "b6", { symbol := "S", side := "B", price := 6, qty := 1, timestamp := 0 }),
   (some "a1", { symbol := "S", side := "S", price := 11, qty := 1, timestamp := 0 }),
   (some "a2", { symbol := "S", side := "S", price := 12, qty := 1, timestamp := 0 }),
   (some "a3", { symbol := "S", side := "S", price := 13, qty := 1, timestamp := 0 }),
   (some "a4", { symbol := "S", side := "S", price := 14, qty := 1, timestamp := 0 }),
   (some "a5", { symbol := "S", side := "S", price := 15, qty := 1, timestamp := 0 }),
   (some "a6", { symbol := "S", side := "S", price := 16, qty := 1, timestamp := 0 })]

/-!  ## Helper lemmas about the store operations  -/

theorem lookup_insertS_self (s : Store) (k : Key) (v : LiveOrder) :
    lookup (insertS s k v) k = some v := by
  induction s with
  | nil => simp [insertS, lookup]
  | cons p t ih =>
    by_cases h : p.1 = k
    · simp [insertS, h, lookup]
    · simp [insertS, h, lookup, ih]

theorem lookup_insertS_ne (s : Store) (k k' : Key) (v : LiveOrder) (h : k' ≠ k) :
    lookup (insertS s k v) k' = lookup s k' := by
  induction s with
  | nil => simp [insertS, lookup, Ne.symm h]
  | cons p t ih =>
    by_cases hp : p.1 = k
    · subst hp
      simp [insertS, lookup, Ne.symm h]
    · by_cases hp' : p.1 = k'
      · simp [insertS, hp, lookup, hp', h]
      · simp [insertS, hp, lookup, hp', ih]

theorem lookup_eraseS_self (s : Store) (k : Key) :
    lookup (eraseS s k) k = none := by
  induction s with
  | nil => simp [eraseS, lookup]
  | cons p t ih =>
    by_cases h : p.1 = k
    · simp [eraseS, h, ih]
    · simp [eraseS, h, lookup, ih]

theorem lookup_eraseS_ne (s : Store) (k k' : Key) (h : k' ≠ k) :
    lookup (eraseS s k) k' = lookup s k' := by
  induction s with
  | nil => simp [eraseS]
  | cons p t ih =>
    by_cases hp : p.1 = k
    · subst hp
      simp [eraseS, lookup, Ne.symm h, ih]
    · by_cases hp' : p.1 = k'
      · simp [eraseS, hp, lookup, hp', h]
      · simp [eraseS, hp, lookup, hp', ih]

theorem mem_insertS (s : Store) (k : Key) (v : LiveOrder) (p : Key × LiveOrder)
    (h : p ∈ insertS s k v) : p = (k, v) ∨ p ∈ s := by
  induction s with
  | nil => simpa [insertS] using h
  | cons q t ih =>
    by_cases hq : q.1 = k
    · simp only [insertS, hq, if_pos rfl] at h
      rcases List.mem_cons.1 h with h | h
      · exact Or.inl h
      · exact Or.inr (List.mem_cons_of_mem _ h)
    · simp only [insertS, hq, if_neg hq] at h
      rcases List.mem_cons.1 h with h | h
      · exact Or.inr (List.mem_cons.2 (Or.inl h))
      · rcases ih h with h | h
        · exact Or.inl h
        · exact Or.inr (List.mem_cons_of_mem _ h)

theorem mem_eraseS (s : Store) (k : Key) (p : Key × LiveOrder)
    (h : p ∈ eraseS s k) : p ∈ s := by
  induction s with
  | nil => simp [eraseS] at h
  | cons q t ih =>
    by_cases hq : q.1 = k
    · simp only [eraseS, if_pos hq] at h
      exact List.mem_cons_of_mem _ (ih h)
    · simp only [eraseS, if_neg hq] at h
      rcases List.mem_cons.1 h with h | h
      · exact List.mem_cons.2 (Or.inl h)
      · exact List.mem_cons_of_mem _ (ih h)

theorem lookup_mem (s : Store) (k : Key) (o : LiveOrder)
    (h : lookup s k = some o) : (k, o) ∈ s := by
  induction s with
  | nil => simp [lookup] at h
  | cons p t ih =>
    by_cases hp : p.1 = k
    · simp only [lookup, if_pos hp] at h
      cases h
      have : p = (k, p.2) := by
        cases p; simp_all
      rw [this]
      exact List.mem_cons_self _ _
    · simp only [lookup, if_neg hp] at h
      exact List.mem_cons_of_mem _ (ih h)

theorem step_of_A (s : Store) (row : Row) (h : row.message_type = some "A") :
    step s row = applyAdd s row := by
  simp [step, h]

theorem step_of_e (s : Store) (row : Row) (h : row.message_type = some "e") :
    step s row = applyExecute s row := by
  simp [step, h]

theorem step_of_D (s : Store) (row : Row) (h : row.message_type = some "D") :
    step s row = applyDelete s row := by
  simp [step, h]

theorem step_of_U (s : Store) (row : Row) (h : row.message_type = some "U") :
    step s row = applyReplace s row := by
  simp [step, h]

theorem step_of_T (s : Store) (row : Row) (h : row.message_type = some "T") :
    step s row = s := by
  simp [step, h]

/-!  ## Preservation of the quantity invariant  -/

theorem qtyOkB_pos {qs : String} {q : Int} (h : qtyOkB qs = true) (hp : pyInt qs = some q) :
    0 < q := by
  unfold qtyOkB at h
  rw [hp] at h
  exact of_decide_eq_true h

theorem storeInv_insertS (s : Store) (k : Key) (v : LiveOrder)
    (hs : StoreInv s) (hv : 0 < v.qty) : StoreInv (insertS s k v) := by
  intro p hp
  rcases mem_insertS s k v p hp with h | h
  · rw [h]; exact hv
  · exact hs p h

theorem storeInv_eraseS (s : Store) (k : Key) (hs : StoreInv s) :
    StoreInv (eraseS s k) :=
  fun p hp => hs p (mem_eraseS s k p hp)

theorem storeInv_applyAdd (s : Store) (row : Row) (hs : StoreInv s)
    (hne : row.quantity.getD "0" ≠ "") (hok : qtyOkB (row.quantity.getD "0") = true) :
    StoreInv (applyAdd s row) := by
  unfold applyAdd
  split
  · exact hs
  · split
    · rcases hqq : pyInt (row.quantity.getD "0") with _ | q <;>
      rcases hpp : (if row.price.getD "0" ≠ "" then pyFloat (row.price.getD "0")
          else some 0) with _ | p <;>
      rcases htt : (if effTimestampStr row ≠ "" then pyInt (effTimestampStr row)
          else some 0) with _ | t <;>
      first
        | exact hs
        | exact storeInv_insertS _ _ _ hs (qtyOkB_pos hok hqq)
    · exact hs

theorem storeInv_applyExecute (s : Store) (row : Row) (hs : StoreInv s) :
    StoreInv (applyExecute s row) := by
  unfold applyExecute
  split
  · exact hs
  · split
    · exact hs
    · split
      · exact storeInv_eraseS _ _ hs
      · next h =>
        apply storeInv_insertS _ _ _ hs
        show 0 < _ - _
        omega

theorem storeInv_applyDelete (s : Store) (row : Row) (hs : StoreInv s) :
    StoreInv (applyDelete s row) := by
  unfold applyDelete
  split
  · exact hs
  · split
    · exact storeInv_eraseS _ _ hs
    · exact hs

theorem newOrder?_qty_pos {row : Row} {old n : LiveOrder}
    (hok : qtyOkB (row.quantity.getD "0") = true) (hold : 0 < old.qty)
    (h : newOrder? row old = some n) : 0 < n.qty := by
  unfold newOrder? at h
  rcases hpp : (if row.price.getD "0" ≠ "" ∧ row.price.getD "0" ≠ "0"
      then pyFloat (row.price.getD "0") else some old.price) with _ | p <;>
  rcases hqq : (if row.quantity.getD "0" ≠ "" then pyInt (row.quantity.getD "0")
      else some old.qty) with _ | q <;>
  rw [hpp, hqq] at h
  · exact Option.noConfusion h
  · exact Option.noConfusion h
  · exact Option.noConfusion h
  · injection h with h'
    rw [← h']
    show 0 < q
    by_cases hq : row.quantity.getD "0" = ""
    · rw [if_neg (fun hc => hc hq)] at hqq
      injection hqq with hqq'
      omega
    · rw [if_pos hq] at hqq
      exact qtyOkB_pos hok hqq

theorem storeInv_applyReplace (s : Store) (row : Row) (hs : StoreInv s)
    (hok : qtyOkB (row.quantity.getD "0") = true) :
    StoreInv (applyReplace s row) := by
  unfold applyReplace
  split
  · exact hs
  · next old hold =>
    split
    · next n hn =>
      have h0 : 0 < old.qty := hs (row.old_order_id, old) (lookup_mem _ _ _ hold)
      exact storeInv_insertS _ _ _ (storeInv_eraseS _ _ hs) (newOrder?_qty_pos hok h0 hn)
    · exact storeInv_eraseS _ _ hs

theorem storeInv_step (s : Store) (row : Row) (hs : StoreInv s) (hg : goodQty row) :
    StoreInv (step s row) := by
  unfold step
  split_ifs with h1 h2 h3 h4
  · rcases hg.1 h1 with ⟨hne, hok⟩
    exact storeInv_applyAdd s row hs hne hok
  · exact storeInv_applyExecute s row hs
  · exact storeInv_applyDelete s row hs
  · exact storeInv_applyReplace s row hs (hg.2 h4)
  · exact hs

theorem storeInv_foldl (rows : List Row) :
    ∀ s : Store, StoreInv s → (∀ r ∈ rows, goodQty r) → StoreInv (rows.foldl step s) := by
  induction rows with
  | nil => intro s hs _; exact hs
  | cons r t ih =>
    intro s hs hg
    simp only [List.foldl_cons]
    exact ih _ (storeInv_step s r hs (hg r (List.mem_cons_self r t)))
      (fun r' hr' => hg r' (List.mem_cons_of_mem r hr'))

/-!  ## Execute lemmas  -/

theorem applyExecute_absent (s : Store) (row : Row)
    (h : lookup s row.order_id = none) : applyExecute s row = s := by
  simp [applyExecute, h]

theorem foldl_execute_absent (k : Key) (es : List Row)
    (hall : ∀ r ∈ es, r.message_type = some "e" ∧ r.order_id = k) :
    ∀ s : Store, lookup s k = none → lookup (es.foldl step s) k = none := by
  induction es with
  | nil => intro s hs; simpa using hs
  | cons r t ih =>
    intro s hs
    rcases hall r (List.mem_cons_self r t) with ⟨hty, hid⟩
    have hstep : step s r = s := by
      rw [step_of_e _ _ hty]
      exact applyExecute_absent s r (by rw [hid]; exact hs)
    simp only [List.foldl_cons, hstep]
    exact ih (fun r' hr' => hall r' (List.mem_cons_of_mem r hr')) s hs

theorem execute_monotone (k : Key) (es : List Row) :
    ∀ (s : Store) (o : LiveOrder), lookup s k = some o → 0 < o.qty →
    (∀ r ∈ es, r.message_type = some "e" ∧ r.order_id = k ∧ (execQty? r).isSome = true) →
    o.qty ≤ (es.map (fun r => (execQty? r).getD 0)).sum →
    lookup (es.foldl step s) k = none := by
  induction es with
  | nil =>
    intro s o hlk hpos _ hsum
    simp only [List.map_nil, List.sum_nil] at hsum
    omega
  | cons r t ih =>
    intro s o hlk hpos hall hsum
    rcases hall r (List.mem_cons_self r t) with ⟨hty, hid, hsome⟩
    rcases Option.isSome_iff_exists.1 hsome with ⟨e, he⟩
    have htail : ∀ r' ∈ t, r'.message_type = some "e" ∧ r'.order_id = k ∧
        (execQty? r').isSome = true :=
      fun r' hr' => hall r' (List.mem_cons_of_mem r hr')
    have hsum' : o.qty ≤ e + (t.map (fun r' => (execQty? r').getD 0)).sum := by
      simpa [he] using hsum
    have hstep : step s r = applyExecute s r := step_of_e s r hty
    by_cases hle : o.qty - e ≤ 0
    · have hred : step s r = eraseS s k := by
        rw [hstep]
        simp [applyExecute, hid, hlk, he, hle]
      simp only [List.foldl_cons, hred]
      exact foldl_execute_absent k t (fun r' hr' => ⟨(htail r' hr').1, (htail r' hr').2.1⟩)
        _ (lookup_eraseS_self s k)
    · have hq : 0 < o.qty - e := by omega
      have hred : step s r = insertS s k { o with qty := o.qty - e } := by
        rw [hstep]
        simp [applyExecute, hid, hlk, he, hle]
      simp only [List.foldl_cons, hred]
      exact ih _ _ (lookup_insertS_self s k _) hq htail (by show o.qty - e ≤ _; omega)

/-!  ## Sorting lemmas for the depth aggregation  -/

theorem pairwiseAnd {α : Type} {R S : α → α → Prop} {l : List α}
    (h1 : l.Pairwise R) (h2 : l.Pairwise S) :
    l.Pairwise (fun a b => R a b ∧ S a b) := by
  induction l with
  | nil => exact List.Pairwise.nil
  | cons a t ih =>
    rcases List.pairwise_cons.1 h1 with ⟨ha1, ht1⟩
    rcases List.pairwise_cons.1 h2 with ⟨ha2, ht2⟩
    exact List.pairwise_cons.2 ⟨fun b hb => ⟨ha1 b hb, ha2 b hb⟩, ih ht1 ht2⟩

theorem sortDescRat_pairwise_gt (l : List Rat) (h : l.Nodup) :
    (sortDescRat l).Pairwise (fun a b => a > b) := by
  have hs : (sortDescRat l).Pairwise (fun a b => b ≤ a) :=
    List.sorted_insertionSort _ l
  have hn : (sortDescRat l).Pairwise (fun a b : Rat => a ≠ b) :=
    ((List.perm_insertionSort _ l).nodup_iff.mpr h : (sortDescRat l).Nodup)
  exact (pairwiseAnd hs hn).imp (fun hab => lt_of_le_of_ne hab.1 (Ne.symm hab.2))

theorem sortAscRat_pairwise_lt (l : List Rat) (h : l.Nodup) :
    (sortAscRat l).Pairwise (fun a b => a < b) := by
  have hs : (sortAscRat l).Pairwise (fun a b => a ≤ b) :=
    List.sorted_insertionSort _ l
  have hn : (sortAscRat l).Pairwise (fun a b : Rat => a ≠ b) :=
    ((List.perm_insertionSort _ l).nodup_iff.mpr h : (sortAscRat l).Nodup)
  exact (pairwiseAnd hs hn).imp (fun hab => lt_of_le_of_ne hab.1 hab.2)

theorem bidLevels_fst (s : Store) (sym : String) :
    (bidLevels s sym).map Prod.fst = (sortDescRat (bidPricesOf s sym)).take 5 := by
  simp only [bidLevels, List.map_map]
  rw [show (Prod.fst ∘ fun p : Rat => (p, bidQtyAt s sym p)) = id from rfl, List.map_id]

theorem askLevels_fst (s : Store) (sym : String) :
    (askLevels s sym).map Prod.fst = (sortAscRat (askPricesOf s sym)).take 5 := by
  simp only [askLevels, List.map_map]
  rw [show (Prod.fst ∘ fun p : Rat => (p, askQtyAt s sym p)) = id from rfl, List.map_id]

/-!  ## Claim theorems  -/

/-- C9: applying a DeleteOrder row twice in a row yields exactly the same
store state as applying it once, and deleting an id absent from the store
leaves the store unchanged. -/
theorem claim_C9 (s : Store) (row : Row) (h : row.message_type = some "D") :
    step (step s row) row = step s row ∧
    (lookup s row.order_id = none → step s row = s) := by
  have e : ∀ t : Store, step t row = applyDelete t row := fun t => step_of_D t row h
  simp only [e]
  cases hod : row.order_id with
  | none => simp [applyDelete, hod]
  | some oid =>
    constructor
    · by_cases h1 : oid ≠ "" ∧ (lookup s (some oid)).isSome = true
      · simp [applyDelete, hod, h1, lookup_eraseS_self]
      · simp [applyDelete, hod, h1]
    · intro h0
      simp [applyDelete, hod, h0]

/-- C9 witness: a concrete double delete and a delete of an absent id. -/
theorem claim_C9_witness :
    step (step exStore1 exRowDel1) exRowDel1 = step exStore1 exRowDel1 ∧
    step ([] : Store) exRowDel1 = [] :=
  ⟨(claim_C9 exStore1 exRowDel1 rfl).1, (claim_C9 [] exRowDel1 rfl).2 rfl⟩

/-- C10: an AddOrder row whose order_id or symbol field is missing or empty
leaves the store completely unchanged. -/
theorem claim_C10 (s : Store) (row : Row) (h : row.message_type = some "A")
    (hbad : row.order_id = none ∨ row.order_id = some "" ∨
      row.symbol = none ∨ row.symbol = some "") :
    step s row = s := by
  rw [step_of_A s row h]
  rcases hbad with h1 | h1 | h1 | h1
  · simp [applyAdd, h1]
  · simp [applyAdd, h1]
  · cases hod : row.order_id with
    | none => simp [applyAdd, hod]
    | some oid => simp [applyAdd, hod, h1, show pyStripStr "" = "" from rfl]
  · cases hod : row.order_id with
    | none => simp [applyAdd, hod]
    | some oid => simp [applyAdd, hod, h1, show pyStripStr "" = "" from rfl]

/-- C10 witness: adding a row with no order_id field changes nothing. -/
theorem claim_C10_witness : step exStore1 exRowAddNoId = exStore1 :=
  claim_C10 exStore1 exRowAddNoId rfl (Or.inl rfl)

/-- C1 counterexample: a ReplaceOrder whose old id is live but whose
new_price string is malformed removes the old order and inserts nothing —
the old order is retired without the new order appearing, which the claim
says can never happen. -/
theorem claim_C1_counterexample :
    exRowReplaceBad.message_type = some "U" ∧
    lookup exStore1 exRowReplaceBad.old_order_id =
      some { symbol := "ABC", side := "B", price := 10, qty := 100, timestamp := 0 } ∧
    step exStore1 exRowReplaceBad = [] :=
  ⟨rfl, by decide, by decide⟩

/-- C1 (amended): for a ReplaceOrder row, an absent old_order_id leaves the
store unchanged (the event is dropped); when the old order is live and both
optional fields convert, retirement and insertion happen as one combined
update; when a conversion fails, the old order is retired while no new
order is inserted. -/
theorem claim_C1 (s : Store) (row : Row) (h : row.message_type = some "U") :
    (lookup s row.old_order_id = none → step s row = s) ∧
    (∀ old n, lookup s row.old_order_id = some old → newOrder? row old = some n →
      step s row = insertS (eraseS s row.old_order_id) row.order_id n) ∧
    (∀ old, lookup s row.old_order_id = some old → newOrder? row old = none →
      step s row = eraseS s row.old_order_id) := by
  rw [step_of_U s row h]
  refine ⟨fun h0 => ?_, fun old n h1 h2 => ?_, fun old h1 h2 => ?_⟩
  · simp [applyReplace, h0]
  · simp [applyReplace, h1, h2]
  · simp [applyReplace, h1, h2]

/-- C1 witness: the three branches of the amended claim at concrete inputs. -/
theorem claim_C1_witness :
    step ([] : Store) exRowReplaceBad = [] ∧
    step exStore1 exRowReplaceC =
      insertS (eraseS exStore1 (some "1")) (some "2")
        { symbol := "ABC", side := "B", price := 10, qty := 200, timestamp := 0 } ∧
    step exStore1 exRowReplaceBad = eraseS exStore1 (some "1") := by
  refine ⟨(claim_C1 [] exRowReplaceBad rfl).1 rfl, ?_, ?_⟩
  · exact (claim_C1 exStore1 exRowReplaceC rfl).2.1
      { symbol := "ABC", side := "B", price := 10, qty := 100, timestamp := 0 }
      { symbol := "ABC", side := "B", price := 10, qty := 200, timestamp := 0 }
      (by decide) (by decide)
  · exact (claim_C1 exStore1 exRowReplaceBad rfl).2.2
      { symbol := "ABC", side := "B", price := 10, qty := 100, timestamp := 0 }
      (by decide) (by decide)

/-- C2 counterexample: one AddOrder with quantity "0" leaves an order with
quantity 0 in the store, so the invariant does not hold for every event
sequence. -/
theorem claim_C2_counterexample :
    runRows [exRowAddZero] =
      [(some "1", { symbol := "ABC", side := "B", price := 0, qty := 0, timestamp := 0 })] ∧
    ¬ StoreInv (runRows [exRowAddZero]) :=
  ⟨by decide, by decide⟩

/-- C2 (amended): starting from the empty store, if every AddOrder row has a
nonempty quantity string not converting to a non-positive integer and every
ReplaceOrder row's quantity string does not convert to a non-positive
integer, then every stored order keeps quantity > 0 after any event
sequence — in particular an execute that drives a quantity to zero or below
deletes the entry within the same step. -/
theorem claim_C2 (rows : List Row) (h : ∀ r ∈ rows, goodQty r) :
    StoreInv (runRows rows) :=
  storeInv_foldl rows [] (fun p hp => absurd hp (List.not_mem_nil p)) h

/-- C2 witness: adds, a partial execute, a snapshot and a delete keep the
invariant. -/
theorem claim_C2_witness :
    StoreInv (runRows [exRowAdd1, exRowAdd2, exRowExec40, exRowT, exRowDel1]) :=
  claim_C2 _ (by decide)

/-- C3 counterexample: a ReplaceOrder whose new id equals its old id leaves
an entry under old_order_id after the event, contradicting the claim that
the store then has no entry for old_order_id. -/
theorem claim_C3_counterexample :
    exRowReplaceSame.message_type = some "U" ∧
    lookup exStore1 exRowReplaceSame.old_order_id =
      some { symbol := "ABC", side := "B", price := 10, qty := 100, timestamp := 0 } ∧
    lookup (step exStore1 exRowReplaceSame) exRowReplaceSame.old_order_id =
      some { symbol := "ABC", side := "B", price := 10, qty := 200, timestamp := 0 } :=
  ⟨rfl, by decide, by decide⟩

/-- C3 (amended, restricted to new_order_id ≠ old_order_id): after a replace
whose old id is live, the old id is absent and the new id holds an order
carrying the old symbol, side and timestamp, with price and quantity taken
from the row exactly when the corresponding string is present (nonempty, and
also non-"0" for the price) and carried over from the old order otherwise. -/
theorem claim_C3 (s : Store) (row : Row) (x y : String) (old : LiveOrder) (p : Rat) (q : Int)
    (hty : row.message_type = some "U")
    (hx : row.old_order_id = some x) (hy : row.order_id = some y) (hxy : x ≠ y)
    (hold : lookup s (some x) = some old)
    (hp : (if row.price.getD "0" ≠ "" ∧ row.price.getD "0" ≠ "0"
        then pyFloat (row.price.getD "0") else some old.price) = some p)
    (hq : (if row.quantity.getD "0" ≠ "" then pyInt (row.quantity.getD "0")
        else some old.qty) = some q) :
    lookup (step s row) (some x) = none ∧
    lookup (step s row) (some y) =
      some { symbol := old.symbol, side := old.side, price := p, qty := q,
             timestamp := old.timestamp } := by
  have hn : newOrder? row old =
      some { symbol := old.symbol, side := old.side, price := p, qty := q,
             timestamp := old.timestamp } := by
    unfold newOrder?
    rw [hp, hq]
  have hstep : step s row =
      insertS (eraseS s (some x)) (some y)
        { symbol := old.symbol, side := old.side, price := p, qty := q,
          timestamp := old.timestamp } := by
    rw [step_of_U s row hty]
    simp [applyReplace, hx, hold, hn, hy]
  rw [hstep]
  constructor
  · rw [lookup_insertS_ne _ _ _ _ (fun hc => hxy (Option.some.inj hc))]
    exact lookup_eraseS_self s (some x)
  · exact lookup_insertS_self _ _ _

/-- C3 witness: Scenario C — Replace(old=1, new=2, price absent, qty 200) on
order 1 = (ABC, Bid, 10.00, 100) yields order 2 = (ABC, Bid, 10.00, 200) and
order 1 absent. -/
theorem claim_C3_witness :
    lookup (step exStore1 exRowReplaceC) (some "1") = none ∧
    lookup (step exStore1 exRowReplaceC) (some "2") =
      some { symbol := "ABC", side := "B", price := 10, qty := 200, timestamp := 0 } :=
  claim_C3 exStore1 exRowReplaceC "1" "2"
    { symbol := "ABC", side := "B", price := 10, qty := 100, timestamp := 0 } 10 200
    rfl rfl rfl (by decide) (by decide) (by decide) (by decide)

/-- C4: an ExecuteOrder for an id absent from the store is a no-op; for a
live order it decrements the quantity by the executed quantity, deleting the
entry exactly when the result is ≤ 0; consequently a run of executes whose
summed executed quantities reach a live order's (positive) quantity leaves
that id absent from the store. -/
theorem claim_C4 :
    (∀ (s : Store) (row : Row), row.message_type = some "e" →
      lookup s row.order_id = none → step s row = s) ∧
    (∀ (s : Store) (row : Row) (o : LiveOrder) (e : Int), row.message_type = some "e" →
      lookup s row.order_id = some o → execQty? row = some e →
      (o.qty - e ≤ 0 → lookup (step s row) row.order_id = none) ∧
      (0 < o.qty - e →
        lookup (step s row) row.order_id = some { o with qty := o.qty - e })) ∧
    (∀ (k : Key) (es : List Row) (s : Store) (o : LiveOrder),
      lookup s k = some o → 0 < o.qty →
      (∀ r ∈ es, r.message_type = some "e" ∧ r.order_id = k ∧ (execQty? r).isSome = true) →
      o.qty ≤ (es.map (fun r => (execQty? r).getD 0)).sum →
      lookup (es.foldl step s) k = none) := by
  refine ⟨?_, ?_, execute_monotone⟩
  · intro s row hty h0
    rw [step_of_e s row hty]
    exact applyExecute_absent s row h0
  · intro s row o e hty hlk he
    constructor
    · intro hle
      rw [step_of_e s row hty]
      have hred : applyExecute s row = eraseS s row.order_id := by
        simp [applyExecute, hlk, he, hle]
      rw [hred]
      exact lookup_eraseS_self s row.order_id
    · intro hgt
      rw [step_of_e s row hty]
      have hred : applyExecute s row = insertS s row.order_id { o with qty := o.qty - e } := by
        simp [applyExecute, hlk, he, show ¬ o.qty - e ≤ 0 from by omega]
      rw [hred]
      exact lookup_insertS_self _ _ _

/-- C4 witness: Scenario D (execute on the never-added id 999 is a no-op)
and Scenario A (100 - 40 leaves 60; executing 40 then 60 retires the order). -/
theorem claim_C4_witness :
    step exStore1 exRowExecNone = exStore1 ∧
    lookup (step exStore1 exRowExec40) (some "1") =
      some { symbol := "ABC", side := "B", price := 10, qty := 60, timestamp := 0 } ∧
    lookup ([exRowExec40, exRowExec60].foldl step exStore1) (some "1") = none := by
  refine ⟨claim_C4.1 exStore1 exRowExecNone rfl (by decide), ?_, ?_⟩
  · have h := (claim_C4.2.1 exStore1 exRowExec40
      { symbol := "ABC", side := "B", price := 10, qty := 100, timestamp := 0 } 40
      rfl (by decide) (by decide)).2 (by decide)
    simpa using h
  · exact claim_C4.2.2 (some "1") [exRowExec40, exRowExec60] exStore1
      { symbol := "ABC", side := "B", price := 10, qty := 100, timestamp := 0 }
      (by decide) (by decide) (by decide) (by decide)

/-- C6: for every store state and symbol the bid level prices are strictly
descending and the ask level prices strictly ascending, no price occurs in
two levels of one side, and each level's quantity is the sum of the
quantities of that symbol's live orders at that price on that side. -/
theorem claim_C6 (s : Store) (sym : String) :
    ((bidLevels s sym).map Prod.fst).Pairwise (fun a b => a > b) ∧
    ((askLevels s sym).map Prod.fst).Pairwise (fun a b => a < b) ∧
    ((bidLevels s sym).map Prod.fst).Nodup ∧
    ((askLevels s sym).map Prod.fst).Nodup ∧
    (∀ pq ∈ bidLevels s sym,
      pq.2 = (((bidOrdersOf s sym).filter (fun o => decide (o.price = pq.1))).map
        LiveOrder.qty).sum) ∧
    (∀ pq ∈ askLevels s sym,
      pq.2 = (((askOrdersOf s sym).filter (fun o => decide (o.price = pq.1))).map
        LiveOrder.qty).sum) := by
  have hb : ((bidLevels s sym).map Prod.fst).Pairwise (fun a b => a > b) := by
    rw [bidLevels_fst]
    exact (sortDescRat_pairwise_gt _ (List.nodup_dedup _)).sublist (List.take_sublist _ _)
  have ha : ((askLevels s sym).map Prod.fst).Pairwise (fun a b => a < b) := by
    rw [askLevels_fst]
    exact (sortAscRat_pairwise_lt _ (List.nodup_dedup _)).sublist (List.take_sublist _ _)
  refine ⟨hb, ha, hb.imp ne_of_gt, ha.imp ne_of_lt, ?_, ?_⟩
  · intro pq hpq
    rcases List.mem_map.1 hpq with ⟨p, _, rfl⟩
    rfl
  · intro pq hpq
    rcases List.mem_map.1 hpq with ⟨p, _, rfl⟩
    rfl

/-- C6 witness: Scenario B — two bids of 100 and 50 at price 10.00 merge
into the single level (10.00, 150) whose quantity is the sum of the matching
orders' quantities. -/
theorem claim_C6_witness :
    bidLevels exStoreB "ABC" = [((10 : Rat), (150 : Int))] ∧
    (150 : Int) = (((bidOrdersOf exStoreB "ABC").filter
      (fun o => decide (o.price = (10 : Rat)))).map LiveOrder.qty).sum := by
  refine ⟨by decide, ?_⟩
  exact (claim_C6 exStoreB "ABC").2.2.2.2.1 ((10 : Rat), (150 : Int)) (by decide)

/-- C7: when a symbol has more than five distinct live prices on a side, the
aggregated list for that side has exactly five levels and every included
price beats every excluded live price (higher for bids, lower for asks); a
snapshot trigger row leaves the store itself untouched. -/
theorem claim_C7 (s : Store) (sym : String) :
    (5 < (bidPricesOf s sym).length →
      (bidLevels s sym).length = 5 ∧
      ∀ p ∈ (bidLevels s sym).map Prod.fst, ∀ r ∈ bidPricesOf s sym,
        r ∉ (bidLevels s sym).map Prod.fst → r < p) ∧
    (5 < (askPricesOf s sym).length →
      (askLevels s sym).length = 5 ∧
      ∀ p ∈ (askLevels s sym).map Prod.fst, ∀ r ∈ askPricesOf s sym,
        r ∉ (askLevels s sym).map Prod.fst → p < r) ∧
    (∀ row : Row, row.message_type = some "T" → step s row = s) := by
  refine ⟨fun hlen => ⟨?_, ?_⟩, fun hlen => ⟨?_, ?_⟩, fun row h => step_of_T s row h⟩
  · have hL : (sortDescRat (bidPricesOf s sym)).length = (bidPricesOf s sym).length :=
      (List.perm_insertionSort _ _).length_eq
    simp [bidLevels, List.length_take, hL]
    omega
  · intro p hp r hr hrn
    rw [bidLevels_fst] at hp hrn
    have hPW : ((sortDescRat (bidPricesOf s sym)).take 5 ++
        (sortDescRat (bidPricesOf s sym)).drop 5).Pairwise (fun a b => a > b) := by
      rw [List.take_append_drop]
      exact sortDescRat_pairwise_gt _ (List.nodup_dedup _)
    have hrL : r ∈ (sortDescRat (bidPricesOf s sym)).take 5 ++
        (sortDescRat (bidPricesOf s sym)).drop 5 := by
      rw [List.take_append_drop]
      exact (List.perm_insertionSort _ _).mem_iff.mpr hr
    have hrdrop : r ∈ (sortDescRat (bidPricesOf s sym)).drop 5 := by
      rcases List.mem_append.1 hrL with hcase | hcase
      · exact absurd hcase hrn
      · exact hcase
    exact (List.pairwise_append.1 hPW).2.2 p hp r hrdrop
  · have hL : (sortAscRat (askPricesOf s sym)).length = (askPricesOf s sym).length :=
      (List.perm_insertionSort _ _).length_eq
    simp [askLevels, List.length_take, hL]
    omega
  · intro p hp r hr hrn
    rw [askLevels_fst] at hp hrn
    have hPW : ((sortAscRat (askPricesOf s sym)).take 5 ++
        (sortAscRat (askPricesOf s sym)).drop 5).Pairwise (fun a b => a < b) := by
      rw [List.take_append_drop]
      exact sortAscRat_pairwise_lt _ (List.nodup_dedup _)
    have hrL : r ∈ (sortAscRat (askPricesOf s sym)).take 5 ++
        (sortAscRat (askPricesOf s sym)).drop 5 := by
      rw [List.take_append_drop]
      exact (List.perm_insertionSort _ _).mem_iff.mpr hr
    have hrdrop : r ∈ (sortAscRat (askPricesOf s sym)).drop 5 := by
      rcases List.mem_append.1 hrL with hcase | hcase
      · exact absurd hcase hrn
      · exact hcase
    exact (List.pairwise_append.1 hPW).2.2 p hp r hrdrop

/-- C7 witness: with six distinct prices on each side, each level list has
exactly five entries, the omitted worst bid (1) is below the included best
bid (6), the omitted worst ask (16) is above the included best ask (11), and
the snapshot trigger row leaves the store unchanged. -/
theorem claim_C7_witness :
    (bidLevels exStore7 "S").length = 5 ∧
    (askLevels exStore7 "S").length = 5 ∧
    ((1 : Rat) < 6) ∧
    ((11 : Rat) < 16) ∧
    step exStore7 exRowT = exStore7 := by
  refine ⟨((claim_C7 exStore7 "S").1 (by decide)).1,
    ((claim_C7 exStore7 "S").2.1 (by decide)).1,
    ((claim_C7 exStore7 "S").1 (by decide)).2 6 (by decide) 1 (by decide) (by decide),
    ((claim_C7 exStore7 "S").2.1 (by decide)).2 11 (by decide) 16 (by decide) (by decide),
    (claim_C7 exStore7 "S").2.2 exRowT rfl⟩

theorem hasKeyAppend (d1 d2 : PyDict) (k : String) :
    hasKey (d1 ++ d2) k = (hasKey d1 k || hasKey d2 k) := by
  simp [hasKey]

theorem hasKeyIfSingleton (c : Prop) [Decidable c] (k kf : String) (v : PyVal) :
    hasKey (if c then [(kf, v)] else []) k = (decide c && decide (kf = k)) := by
  split_ifs with h
  · simp [hasKey, decide_eq_true h]
  · simp [hasKey, decide_eq_false h]

theorem parsersNeNil (msg : List Nat) :
    parse_message_type_a msg ≠ [] ∧ parse_message_type_r msg ≠ [] ∧
    parse_message_type_k msg ≠ [] ∧ parse_message_type_h msg ≠ [] ∧
    parse_message_type_f msg ≠ [] ∧ parse_message_type_l msg ≠ [] ∧
    parse_message_type_s msg ≠ [] ∧ parse_message_type_m msg ≠ [] ∧
    parse_message_type_s_stock msg ≠ [] ∧ parse_message_type_t msg ≠ [] := by
  refine ⟨?_, ?_, ?_, ?_, ?_, ?_, ?_, ?_, ?_, ?_⟩ <;>
    simp [parse_message_type_a, parse_message_type_r, parse_message_type_k,
      parse_message_type_h, parse_message_type_f, parse_message_type_l,
      parse_message_type_s, parse_message_type_m, parse_message_type_s_stock,
      parse_message_type_t]

set_option maxHeartbeats 1600000 in
/-- C5: `decode_message` returns a (non-empty) result dict for every input
byte sequence; an 'A'-tagged frame carries exactly the optional fields its
length covers (each field present iff the frame reaches that field's end
offset); and a frame whose tag 'Z' has no registered decoder yields the
Unknown dict carrying the tag, the frame length and the raw bytes. -/
theorem claim_C5 :
    (∀ msg : List Nat, decode_message msg ≠ []) ∧
    (∀ rest : List Nat,
      (hasKey (decode_message (65 :: rest)) "timestamp" = true ↔
        5 ≤ (65 :: rest).length) ∧
      (hasKey (decode_message (65 :: rest)) "order_id" = true ↔
        13 ≤ (65 :: rest).length) ∧
      (hasKey (decode_message (65 :: rest)) "symbol" = true ↔
        21 ≤ (65 :: rest).length) ∧
      (hasKey (decode_message (65 :: rest)) "quantity" = true ↔
        25 ≤ (65 :: rest).length) ∧
      (hasKey (decode_message (65 :: rest)) "price" = true ↔
        29 ≤ (65 :: rest).length) ∧
      (hasKey (decode_message (65 :: rest)) "side" = true ↔
        30 ≤ (65 :: rest).length)) ∧
    (∀ rest : List Nat, decode_message (90 :: rest) =
      [("message_type", .vStr "Z"), ("type_name", .vStr "Unknown"),
       ("message_length", .vInt ((90 :: rest).length : Int)),
       ("raw", .vStr (bytesHex (90 :: rest)))]) := by
  refine ⟨?_, ?_, ?_⟩
  · intro msg
    match msg with
    | [] => simp [decode_message]
    | b :: t =>
      simp only [decode_message]
      split_ifs <;>
        first
          | exact (parsersNeNil _).1
          | exact (parsersNeNil _).2.1
          | exact (parsersNeNil _).2.2.1
          | exact (parsersNeNil _).2.2.2.1
          | exact (parsersNeNil _).2.2.2.2.1
          | exact (parsersNeNil _).2.2.2.2.2.1
          | exact (parsersNeNil _).2.2.2.2.2.2.1
          | exact (parsersNeNil _).2.2.2.2.2.2.2.1
          | exact (parsersNeNil _).2.2.2.2.2.2.2.2.1
          | exact (parsersNeNil _).2.2.2.2.2.2.2.2.2
          | simp
  · intro rest
    have h65 : msgTypeStr 65 = "A" := by decide
    have hd : decode_message (65 :: rest) = parse_message_type_a (65 :: rest) := by
      simp [decode_message, h65]
    rw [hd]
    refine ⟨?_, ?_, ?_, ?_, ?_, ?_⟩ <;>
      simp [parse_message_type_a, hasKeyAppend, hasKeyIfSingleton, hasKey]
  · intro rest
    have h90 : msgTypeStr 90 = "Z" := by decide
    simp [decode_message, h90]

/-- C8 counterexample: the frame bytes whose fixed-point wire value is 1
decode to the price 1/100 — a rational with denominator 100, not an
integer — so decoded prices are not fixed-point scaled integers. -/
theorem claim_C8_counterexample :
    decode_price [0, 0, 0, 1] 2 = some (mkRat 1 100) ∧
    ¬ ∃ n : Int, decode_price [0, 0, 0, 1] 2 = some ((n : Rat)) := by
  constructor
  · decide
  · rintro ⟨n, hn⟩
    have h1 : decode_price [0, 0, 0, 1] 2 = some (mkRat 1 100) := by decide
    rw [h1] at hn
    have h2 : mkRat 1 100 = (n : Rat) := Option.some.inj hn
    have h3 : (mkRat 1 100).den = 1 := by rw [h2]; exact Rat.den_intCast n
    have h4 : (mkRat 1 100).den = 100 := by decide
    rw [h4] at h3
    exact absurd h3 (by decide)

/-- C8 (amended): prices are not carried as scaled integers — `decode_price`
divides the 4-byte signed big-endian integer by `10 ^ scale`, yielding the
scaled-DOWN decimal value (a Python float whose exact value is
`cents / 10^scale`; the level-2 builder likewise parses price strings with
`float(...)`); price comparisons and sums operate on these decimal values. -/
theorem claim_C8 (b0 b1 b2 b3 : Nat) (rest : List Nat) :
    decode_price (b0 :: b1 :: b2 :: b3 :: rest) 2 =
      some ((beI32 (b0 :: b1 :: b2 :: b3 :: rest) : Rat) / (10 : Rat) ^ 2) := by
  have hlen : ¬ (b0 :: b1 :: b2 :: b3 :: rest).length < 4 := by
    simp [List.length_cons]
  simp only [decode_price, hlen, if_neg, ite_false]
  rw [Rat.mkRat_eq_div]
  norm_num
